import Mathlib

/-!
Shallow embedding of the core pipeline of the voice-web-chatbot repository
(src/app.py, with the near-identical duplicates src/app_cloud.py and
src/app_local.py): question normalization, spell-fix, search-result
filtering and scoring, page-text extraction boundaries, sentence
summarization, and the `web_answer` orchestration.

Modelling conventions:
 - Python strings are Lean `String`s manipulated through their `List Char`
   data; the ASCII fragment of Python's `str.lower`, `str.strip`,
   `str.split`, `str.isalpha` is modelled (all string constants in the
   program are ASCII).
 - Python floats are modelled as exact rationals `ℚ` (the scores only
   enter comparisons and the claims are about the formula).
 - Python sets are modelled as first-occurrence-deduplicated lists.
 - Python's stable `list.sort(key=...)` is modelled by Mathlib's stable
   `List.insertionSort` with the key ordering.
 - fallible third-party collaborators (duckduckgo search, requests/bs4
   fetching, pyspellchecker) are oracle inputs of type `Except Unit _`;
   a `try/except` in the source becomes a `match` on the oracle value.
-/

namespace VWC

/-- the Lean `Char.isWhitespace` set (space, tab, CR, LF): the ASCII model
of Python's whitespace class. -/
def isWs (c : Char) : Bool := c.isWhitespace

/-- maximal runs of characters satisfying `p`, accumulating the current run
reversed; separators are dropped, empty runs never produced. -/
def runsByGo (p : Char → Bool) : List Char → List Char → List (List Char)
  | cur, [] => if cur = [] then [] else [cur.reverse]
  | cur, c :: cs =>
    if p c then runsByGo p (c :: cur) cs
    else if cur = [] then runsByGo p [] cs
    else cur.reverse :: runsByGo p [] cs

def runsBy (p : Char → Bool) (l : List Char) : List (List Char) :=
  runsByGo p [] l

/-- Python `s.split()` (no argument): maximal runs of non-whitespace. -/
def pysplit (s : String) : List String :=
  (runsBy (fun c => !isWs c) s.data).map List.asString

/-- Python `" ".join(l)`. -/
def joinSpace (l : List String) : String := String.intercalate " " l

/-- Python `s.lower()`, ASCII model. -/
def pyLower (s : String) : String := ⟨s.data.map Char.toLower⟩

/-- strip trailing characters satisfying `p` from a character list. -/
def rstripP (p : Char → Bool) (l : List Char) : List Char :=
  (l.reverse.dropWhile p).reverse

/-- Python `s.strip()` (whitespace at both ends), ASCII model. -/
def pyStrip (s : String) : String :=
  ⟨rstripP isWs (s.data.dropWhile isWs)⟩

/-- Python `s.rstrip("?.! ")`: strip trailing characters from that set. -/
def pyRstripPunct (s : String) : String :=
  ⟨rstripP (fun c => c = '?' || c = '.' || c = '!' || c = ' ') s.data⟩

/-- Python truthy-`or` on strings: `a or b` is `b` when `a` is empty. -/
def pyor (a b : String) : String := if a = "" then b else a

/-- ASCII letter (the `[a-zA-Z]` class of the tokenizing regexes). -/
def asciiAlpha (c : Char) : Bool :=
  (97 ≤ c.toNat && c.toNat ≤ 122) || (65 ≤ c.toNat && c.toNat ≤ 90)

/-- Python `w.isalpha()`, ASCII model: nonempty and all letters. -/
def pyIsAlpha (s : String) : Bool := !s.data.isEmpty && s.data.all asciiAlpha

/-- first-occurrence deduplication with an accumulator of already-seen
values: drops an element exactly when an equal one came earlier. -/
def dedupSeen (seen : List String) : List String → List String
  | [] => []
  | u :: us => if u ∈ seen then dedupSeen seen us else u :: dedupSeen (u :: seen) us

/-- first-occurrence deduplication: the list model of a Python `set`
built by insertion order. -/
def dedupFirst (l : List String) : List String := dedupSeen [] l

/-- app.py line 122: the STOP word set. -/
def STOP : List String :=
  ["a", "an", "the", "of", "for", "in", "on", "at", "to", "is", "are",
   "was", "were", "be", "and", "or", "by", "with", "from", "as", "about",
   "into", "over", "after", "before", "between", "than", "then", "this",
   "that", "those", "these", "who", "what", "where", "when", "which",
   "why", "how"]

/-! ### clean_question (app.py lines 123-126)

The regex `^\s*(who|what|where|when|why|which|tell me about)\s+(is|are|was|were|the)?\s*`
is hand-compiled.  No alternative of either group is a prefix of another,
so at most one alternative can match at a given position and the Python
backtracking engine's result is the greedy left-to-right one modelled
here. -/

/-- the first alternation group of the clean_question regex, in source
order. -/
def INTERROG : List String :=
  ["who", "what", "where", "when", "why", "which", "tell me about"]

/-- the optional auxiliary group of the clean_question regex. -/
def AUXWORDS : List String := ["is", "are", "was", "were", "the"]

/-- case-insensitive literal match of `w` (lowercase) at the head of `l`
(the `re.I` flag on an ASCII literal). -/
def ciMatch (w : String) (l : List Char) : Bool :=
  decide ((l.take w.data.length).map Char.toLower = w.data)

/-- length of the alternative of `alts` matching at the head of `l`,
if any (regex alternation on mutually non-prefix literals). -/
def findAlt (alts : List String) (l : List Char) : Option Nat :=
  match alts.find? (fun a => ciMatch a l) with
  | some a => some a.data.length
  | none => none

/-- number of characters matched at the start of `l` by the regex
`^\s*(who|what|where|when|why|which|tell me about)\s+(is|are|was|were|the)?\s*`,
or `none` when it does not match. -/
def regexStripLen (l : List Char) : Option Nat :=
  let i := (l.takeWhile isWs).length
  let rest := l.drop i
  match findAlt INTERROG rest with
  | none => none
  | some n =>
    let rest2 := rest.drop n
    let wsLen := (rest2.takeWhile isWs).length
    if wsLen = 0 then none
    else
      let rest3 := rest2.drop wsLen
      let auxLen := match findAlt AUXWORDS rest3 with
        | some m => m
        | none => 0
      let rest4 := rest3.drop auxLen
      some (i + n + wsLen + auxLen + (rest4.takeWhile isWs).length)

/-- the `re.sub(pattern, "", q, flags=re.I)` step: the pattern is anchored,
so at most the matched leading segment is removed. -/
def regexSub (s : String) : String :=
  match regexStripLen s.data with
  | some n => ⟨s.data.drop n⟩
  | none => s

/-- app.py `clean_question`: strip, remove one leading interrogative
pattern, strip trailing `?.! ` characters, strip whitespace. -/
def clean_question (q : String) : String :=
  pyStrip (pyRstripPunct (regexSub (pyStrip q)))

/-- the output of `clean_question` starts with an interrogative word of the
stripped pattern, at least one whitespace, and an auxiliary (the prefix
shape claim C8 says never occurs). -/
def startsWithInterrogAux (s : String) : Bool :=
  match findAlt INTERROG s.data with
  | none => false
  | some n =>
    let rest := s.data.drop n
    let w := (rest.takeWhile isWs).length
    if w = 0 then false else (findAlt AUXWORDS (rest.drop w)).isSome

/-! ### basic facts about the stripping primitives -/

theorem head?_dropWhile_not (p : Char → Bool) :
    ∀ (l : List Char) (c : Char), (l.dropWhile p).head? = some c → p c = false := by
  intro l
  induction l with
  | nil => intro c h; simp at h
  | cons a l ih =>
    intro c h
    rw [List.dropWhile_cons] at h
    by_cases hp : p a = true
    · rw [if_pos hp] at h; exact ih c h
    · rw [if_neg hp] at h
      simp only [List.head?_cons, Option.some_inj] at h
      rw [← h]; exact Bool.not_eq_true _ |>.mp hp

theorem dropWhile_eq_self_of_head (p : Char → Bool) (l : List Char) (c : Char)
    (hh : l.head? = some c) (hc : p c = false) : l.dropWhile p = l := by
  cases l with
  | nil => simp at hh
  | cons a t =>
    simp only [List.head?_cons, Option.some_inj] at hh
    rw [List.dropWhile_cons, hh, if_neg (by rw [hc]; exact fun h => nomatch h)]

theorem rstripP_getLast (p : Char → Bool) (l : List Char) (c : Char)
    (h : (rstripP p l).getLast? = some c) : p c = false := by
  unfold rstripP at h
  rw [List.getLast?_reverse] at h
  exact head?_dropWhile_not p l.reverse c h

theorem rstripP_eq_self (p : Char → Bool) (l : List Char) (c : Char)
    (hh : l.getLast? = some c) (hc : p c = false) : rstripP p l = l := by
  unfold rstripP
  rw [dropWhile_eq_self_of_head p l.reverse c (by rw [List.head?_reverse]; exact hh) hc,
    List.reverse_reverse]

theorem rstripP_subset (p : Char → Bool) (l : List Char) : rstripP p l ⊆ l := by
  intro c hc
  unfold rstripP at hc
  rw [List.mem_reverse] at hc
  have := (List.dropWhile_sublist (l := l.reverse) p).subset hc
  rw [List.mem_reverse] at this
  exact this

theorem getLast?_of_suffix {l₁ l₂ : List Char} (h : l₂ <:+ l₁) (hne : l₂ ≠ []) :
    l₂.getLast? = l₁.getLast? := by
  obtain ⟨t, rfl⟩ := h
  rw [List.getLast?_append_of_ne_nil t hne]

/-- the last character of a stripped string is never whitespace. -/
theorem pyStrip_getLast_not_ws (s : String) (c : Char)
    (h : (pyStrip s).data.getLast? = some c) : isWs c = false :=
  rstripP_getLast isWs _ c h

/-- the first character of a stripped string is never whitespace. -/
theorem pyStrip_head_not_ws (s : String) (c : Char)
    (h : (pyStrip s).data.head? = some c) : isWs c = false := by
  have hdata : (pyStrip s).data
      = ((s.data.dropWhile isWs).reverse.dropWhile isWs).reverse := rfl
  rw [hdata, List.head?_reverse] at h
  have hne : (s.data.dropWhile isWs).reverse.dropWhile isWs ≠ [] := by
    intro hcon
    rw [hcon] at h
    exact nomatch h
  rw [getLast?_of_suffix (List.dropWhile_suffix isWs) hne, List.getLast?_reverse] at h
  exact head?_dropWhile_not isWs s.data c h

theorem pyStrip_subset (s : String) : (pyStrip s).data ⊆ s.data := by
  intro c hc
  have hdata : (pyStrip s).data = rstripP isWs (s.data.dropWhile isWs) := rfl
  rw [hdata] at hc
  exact (List.dropWhile_sublist isWs).subset (rstripP_subset isWs _ hc)

/-- stripping is the identity on a string with non-whitespace ends. -/
theorem pyStrip_eq_self (s : String)
    (h1 : ∀ c, s.data.head? = some c → isWs c = false)
    (h2 : ∀ c, s.data.getLast? = some c → isWs c = false) : pyStrip s = s := by
  rcases hl : s.data.getLast? with _ | c
  · rw [List.getLast?_eq_none_iff] at hl
    show String.mk (rstripP isWs (s.data.dropWhile isWs)) = s
    cases s with
    | mk d =>
      have hd : d = [] := hl
      subst hd
      rfl
  · have hh : ∃ c0, s.data.head? = some c0 := by
      cases hd : s.data with
      | nil => rw [hd] at hl; simp at hl
      | cons a t => exact ⟨a, rfl⟩
    obtain ⟨c0, hc0⟩ := hh
    show String.mk (rstripP isWs (s.data.dropWhile isWs)) = s
    rw [dropWhile_eq_self_of_head isWs s.data c0 hc0 (h1 c0 hc0),
      rstripP_eq_self isWs s.data c hl (h2 c hl)]

theorem clean_question_unfold (q : String) :
    clean_question q = pyStrip (pyRstripPunct (regexSub (pyStrip q))) := rfl

theorem pyStrip_data (s : String) :
    (pyStrip s).data = rstripP isWs (s.data.dropWhile isWs) := rfl

theorem pyRstripPunct_data (s : String) : (pyRstripPunct s).data
    = rstripP (fun c => c = '?' || c = '.' || c = '!' || c = ' ') s.data := rfl

/-- stripping preserves a non-whitespace last character. -/
theorem pyStrip_getLast_eq (s : String) (d : Char) (hlt : s.data.getLast? = some d)
    (hdw : isWs d = false) : (pyStrip s).data.getLast? = some d := by
  have hne : s.data.dropWhile isWs ≠ [] := by
    intro hcon
    rw [List.dropWhile_eq_nil_iff] at hcon
    have hwd := hcon d (List.mem_of_mem_getLast? hlt)
    rw [hdw] at hwd
    exact nomatch hwd
  have hlast2 : (s.data.dropWhile isWs).getLast? = some d := by
    rw [getLast?_of_suffix (List.dropWhile_suffix isWs) hne]
    exact hlt
  show (rstripP isWs (s.data.dropWhile isWs)).getLast? = some d
  rw [rstripP_eq_self isWs _ d hlast2 hdw]
  exact hlast2

/-! ### settling C8 and C9 -/

/-- Counterexample to C8: `clean_question` strips only one leading
interrogative pattern, so the output of `clean_question "what is what is x"`
still starts with an interrogative word followed by an auxiliary; and on
`"a?\t."` the trailing tab shields a `?` from `rstrip("?.! ")`, which the
final whitespace strip then exposes as the last character. -/
theorem clean_question_C8_counterexample :
    startsWithInterrogAux (clean_question "what is what is x") = true ∧
    (clean_question "a?\t.").data.getLast? = some '?' := by
  constructor <;> decide

/-- C8 (amended): for every question `q`, `clean_question q` never ends
with a whitespace character; and when every whitespace character of `q` is
a plain space, it never ends with `?`, `.`, `!`, or a space.  (The
original claim's first half is false: only one leading interrogative
pattern is removed, so the output can still start with an interrogative
word followed by an auxiliary; and without the all-spaces proviso a tab
can shield trailing punctuation, see the counterexample.) -/
theorem clean_question_C8_amended (q : String) :
    (∀ c, (clean_question q).data.getLast? = some c → c.isWhitespace = false) ∧
    ((∀ c ∈ q.data, c.isWhitespace = true → c = ' ') →
      ∀ c, (clean_question q).data.getLast? = some c →
        c ≠ '?' ∧ c ≠ '.' ∧ c ≠ '!' ∧ c ≠ ' ') := by
  constructor
  · intro c h
    exact pyStrip_getLast_not_ws _ c h
  · intro hq c h
    have hsub2 : (regexSub (pyStrip q)).data ⊆ (pyStrip q).data := by
      unfold regexSub
      cases regexStripLen (pyStrip q).data with
      | none => exact fun a ha => ha
      | some n => exact List.drop_subset n _
    have hsub : (pyRstripPunct (regexSub (pyStrip q))).data ⊆ q.data :=
      fun d hd => pyStrip_subset q (hsub2 (rstripP_subset _ _ hd))
    rcases hlt : (pyRstripPunct (regexSub (pyStrip q))).data.getLast? with _ | d
    · rw [List.getLast?_eq_none_iff] at hlt
      have hnil : (clean_question q).data = [] := by
        rw [clean_question_unfold, pyStrip_data, hlt]
        rfl
      rw [hnil] at h
      simp at h
    · have hlt2 := hlt
      rw [pyRstripPunct_data] at hlt2
      have hdp : (fun c => c = '?' || c = '.' || c = '!' || c = ' ') d = false :=
        rstripP_getLast _ (regexSub (pyStrip q)).data d hlt2
      simp only [Bool.or_eq_false_iff, decide_eq_false_iff_not] at hdp
      have hdw : isWs d = false := by
        cases hb : isWs d
        · rfl
        · exact absurd (hq d (hsub (List.mem_of_mem_getLast? hlt)) hb) hdp.2
      have hfin := pyStrip_getLast_eq (pyRstripPunct (regexSub (pyStrip q))) d hlt hdw
      rw [clean_question_unfold, hfin] at h
      cases h
      exact ⟨hdp.1.1.1, hdp.1.1.2, hdp.1.2, hdp.2⟩

theorem string_eq_of_data {s t : String} (h : s.data = t.data) : s = t := by
  cases s
  cases t
  cases h
  rfl

/-- witness for C8 (amended) at the concrete question `"who is  Lean?"`. -/
theorem clean_question_C8_witness :
    (∀ c ∈ ("who is  Lean?" : String).data, c.isWhitespace = true → c = ' ') ∧
    (∀ c, (clean_question "who is  Lean?").data.getLast? = some c →
      c ≠ '?' ∧ c ≠ '.' ∧ c ≠ '!' ∧ c ≠ ' ') :=
  ⟨by decide, (clean_question_C8_amended "who is  Lean?").2 (by decide)⟩

/-- Counterexample to C9: `clean_question "what is what is what is x"` is
`"what is what is x"`, an element of the image of `clean_question`, yet
one more application still changes it (`"what is x"` and then `"x"`), so
`clean_question` is not idempotent on its image. -/
theorem clean_question_C9_counterexample :
    clean_question (clean_question (clean_question "what is what is what is x"))
      ≠ clean_question (clean_question "what is what is what is x") := by decide

/-- C9 (amended): `clean_question` is idempotent at `q` whenever its output
no longer matches the leading interrogative pattern and does not end in
`?`, `.` or `!`.  (Unconditional idempotence on the image is false — the
regex removes only one leading pattern occurrence — see the
counterexample.) -/
theorem clean_question_C9_amended (q : String)
    (h1 : regexStripLen (clean_question q).data = none)
    (h2 : ∀ c, (clean_question q).data.getLast? = some c →
      c ≠ '?' ∧ c ≠ '.' ∧ c ≠ '!') :
    clean_question (clean_question q) = clean_question q := by
  have hstrip : pyStrip (clean_question q) = clean_question q := by
    apply pyStrip_eq_self
    · intro c hc
      rw [clean_question_unfold] at hc
      exact pyStrip_head_not_ws _ c hc
    · intro c hc
      rw [clean_question_unfold] at hc
      exact pyStrip_getLast_not_ws _ c hc
  have hsub : regexSub (clean_question q) = clean_question q := by
    unfold regexSub
    rw [h1]
  have hpun : pyRstripPunct (clean_question q) = clean_question q := by
    rcases hlast : (clean_question q).data.getLast? with _ | c
    · rw [List.getLast?_eq_none_iff] at hlast
      apply string_eq_of_data
      rw [pyRstripPunct_data, hlast]
      rfl
    · obtain ⟨hc1, hc2, hc3⟩ := h2 c hlast
      have hwsc : isWs c = false := by
        have hlt := hlast
        rw [clean_question_unfold] at hlt
        exact pyStrip_getLast_not_ws _ c hlt
      have hcs : c ≠ ' ' := by
        intro he
        rw [he] at hwsc
        exact absurd hwsc (by decide)
      have hb : (fun x => x = '?' || x = '.' || x = '!' || x = ' ') c = false := by
        simp only [Bool.or_eq_false_iff, decide_eq_false_iff_not]
        exact ⟨⟨⟨hc1, hc2⟩, hc3⟩, hcs⟩
      apply string_eq_of_data
      rw [pyRstripPunct_data]
      exact rstripP_eq_self _ _ c hlast hb
  calc clean_question (clean_question q)
      = pyStrip (pyRstripPunct (regexSub (pyStrip (clean_question q)))) :=
        clean_question_unfold _
    _ = clean_question q := by rw [hstrip, hsub, hpun, hstrip]

/-- witness for C9 (amended) at `"What is the capital of France?"`. -/
theorem clean_question_C9_witness :
    clean_question (clean_question "What is the capital of France?")
      = clean_question "What is the capital of France?" := by
  apply clean_question_C9_amended
  · decide
  · intro c hc
    have h0 : (clean_question "What is the capital of France?").data.getLast?
        = some 'e' := by decide
    rw [h0] at hc
    cases hc
    decide

/-! ### keywords and the summarizer (app.py lines 144-145 and 170-182) -/

/-- app.py `keywords`: lowercase `[a-zA-Z]+` tokens with stop words
removed. -/
def keywords (t : String) : List String :=
  ((runsBy asciiAlpha (pyLower t).data).map List.asString).filter
    (fun w => decide (w ∉ STOP))

/-- splitter state machine for `re.split(r"(?<=[.!?])\s+", text)`: the
first argument is true while the scan is inside the whitespace run of a
split match, `cur` is the reversed current field, so the character the
lookbehind inspects is `cur.head?` (the `\s+` is greedy and no alternative
of the pattern overlaps it, so a single left-to-right pass suffices). -/
def sentGo : Bool → List Char → List Char → List (List Char)
  | _, cur, [] => [cur.reverse]
  | true, cur, c :: cs =>
    if isWs c then sentGo true cur cs
    else sentGo false [c] cs
  | false, cur, c :: cs =>
    if isWs c && (cur.head? = some '.' || cur.head? = some '!' || cur.head? = some '?') then
      cur.reverse :: sentGo true [] cs
    else sentGo false (c :: cur) cs

/-- the sentence split of `summarize`. -/
def sentSplit (text : String) : List String :=
  (sentGo false [] text.data).map List.asString

/-- per-sentence keyword-overlap count: the sentence's tokens (stop words
removed) lying in the query keyword set, counted with multiplicity. -/
def overlapCount (qwords : List String) (s : String) : Nat :=
  ((keywords s).filter (fun w => decide (w ∈ qwords))).length

/-- the scored-and-filtered sentence list of `summarize`: `(overlap,
index, sentence)` for each sentence whose whitespace-delimited word count
lies in `[6, 40]`. -/
def eligScored (qwords : List String) (sents : List String) :
    List (Nat × Nat × String) :=
  sents.enum.filterMap (fun p =>
    if 6 ≤ (pysplit p.2).length ∧ (pysplit p.2).length ≤ 40 then
      some (overlapCount qwords p.2, p.1, p.2)
    else none)

/-- the key order of `scored.sort(key=lambda x: (-x[0], x[1]))`. -/
def rScored (x y : Nat × Nat × String) : Prop :=
  y.1 < x.1 ∨ (x.1 = y.1 ∧ x.2.1 ≤ y.2.1)

instance : DecidableRel rScored := fun x y =>
  inferInstanceAs (Decidable (y.1 < x.1 ∨ (x.1 = y.1 ∧ x.2.1 ≤ y.2.1)))

instance : IsTotal (Nat × Nat × String) rScored := by
  refine ⟨fun a b => ?_⟩
  unfold rScored
  omega

instance : IsTrans (Nat × Nat × String) rScored := by
  refine ⟨fun a b c hab hbc => ?_⟩
  unfold rScored at *
  omega

/-- the key order of `sorted(..., key=lambda x: x[1])`. -/
def rIdx (x y : Nat × Nat × String) : Prop := x.2.1 ≤ y.2.1

instance : DecidableRel rIdx := fun x y =>
  inferInstanceAs (Decidable (x.2.1 ≤ y.2.1))

instance : IsTotal (Nat × Nat × String) rIdx := ⟨fun a b => Nat.le_total a.2.1 b.2.1⟩

instance : IsTrans (Nat × Nat × String) rIdx := ⟨fun _ _ _ => Nat.le_trans⟩

/-- app.py `summarize` (lines 170-182): split into sentences, score and
length-filter them, first-`k` fallback, else stable-sort by
(descending overlap, index), take `max 2 k`, stable-sort the selection by
index, join with spaces and strip.  Python's stable sorts are
`List.insertionSort` with the key order. -/
def summarize (text : String) (qwords : List String) (k : Nat) : String :=
  if text = "" then ""
  else if eligScored qwords (sentSplit text) = [] then
    pyStrip (joinSpace ((sentSplit text).take k))
  else
    pyStrip (joinSpace
      (((List.insertionSort rIdx
          ((List.insertionSort rScored (eligScored qwords (sentSplit text))).take
            (max 2 k)))).map (fun x => x.2.2)))

/-- the `(original index, sentence)` pairs whose sentences `summarize`
joins, on either path. -/
def summarizeChosen (text : String) (qwords : List String) (k : Nat) :
    List (Nat × String) :=
  if text = "" then []
  else if eligScored qwords (sentSplit text) = [] then
    ((sentSplit text).take k).enum
  else
    (List.insertionSort rIdx
      ((List.insertionSort rScored (eligScored qwords (sentSplit text))).take
        (max 2 k))).map (fun x => (x.2.1, x.2.2))

theorem mem_enumFrom_getElem? {α : Type*} :
    ∀ (l : List α) (n : Nat) (p : Nat × α), p ∈ l.enumFrom n →
      n ≤ p.1 ∧ l[p.1 - n]? = some p.2 := by
  intro l
  induction l with
  | nil => intro n p hp; exact absurd hp (List.not_mem_nil p)
  | cons a l ih =>
    intro n p hp
    rw [List.enumFrom_cons, List.mem_cons] at hp
    rcases hp with rfl | hp
    · exact ⟨Nat.le_refl n, by simp⟩
    · obtain ⟨hn, hget⟩ := ih (n + 1) p hp
      refine ⟨Nat.le_of_succ_le hn, ?_⟩
      have harith : p.1 - n = (p.1 - (n + 1)) + 1 := by omega
      rw [harith, List.getElem?_cons_succ]
      exact hget

theorem mem_enum_getElem? {α : Type*} (l : List α) (p : Nat × α)
    (hp : p ∈ l.enum) : l[p.1]? = some p.2 := by
  have h := (mem_enumFrom_getElem? l 0 p hp).2
  rwa [Nat.sub_zero] at h

theorem eligScored_mem (qwords : List String) (sents : List String)
    (x : Nat × Nat × String) (hx : x ∈ eligScored qwords sents) :
    sents[x.2.1]? = some x.2.2 ∧
      6 ≤ (pysplit x.2.2).length ∧ (pysplit x.2.2).length ≤ 40 := by
  unfold eligScored at hx
  rw [List.mem_filterMap] at hx
  obtain ⟨p, hp, hf⟩ := hx
  by_cases hc : 6 ≤ (pysplit p.2).length ∧ (pysplit p.2).length ≤ 40
  · rw [if_pos hc] at hf
    cases hf
    exact ⟨mem_enum_getElem? sents p hp, hc⟩
  · rw [if_neg hc] at hf
    exact nomatch hf

/-- on the scored path, every chosen pair projects an eligible scored
triple. -/
theorem summarizeChosen_elig (text : String) (qwords : List String) (k : Nat)
    (hne : eligScored qwords (sentSplit text) ≠ []) (p : Nat × String)
    (hp : p ∈ summarizeChosen text qwords k) :
    ∃ x ∈ eligScored qwords (sentSplit text), p = (x.2.1, x.2.2) := by
  unfold summarizeChosen at hp
  by_cases h0 : text = ""
  · rw [if_pos h0] at hp
    exact absurd hp (List.not_mem_nil p)
  · rw [if_neg h0, if_neg hne] at hp
    rw [List.mem_map] at hp
    obtain ⟨x, hx, hpx⟩ := hp
    refine ⟨x, ?_, hpx.symm⟩
    have h1 := ((List.perm_insertionSort rIdx _).mem_iff).mp hx
    have h2 := List.take_subset _ _ h1
    exact ((List.perm_insertionSort rScored _).mem_iff).mp h2

theorem summarizeChosen_mem (text : String) (qwords : List String) (k : Nat)
    (p : Nat × String) (hp : p ∈ summarizeChosen text qwords k) :
    (sentSplit text)[p.1]? = some p.2 := by
  by_cases hne : eligScored qwords (sentSplit text) = []
  · unfold summarizeChosen at hp
    by_cases h0 : text = ""
    · rw [if_pos h0] at hp
      exact absurd hp (List.not_mem_nil p)
    · rw [if_neg h0, if_pos hne] at hp
      have h1 := mem_enum_getElem? _ p hp
      rw [List.getElem?_take] at h1
      by_cases hk : p.1 < k
      · rwa [if_pos hk] at h1
      · rw [if_neg hk] at h1
        exact nomatch h1
  · obtain ⟨x, hx, hpx⟩ := summarizeChosen_elig text qwords k hne p hp
    rw [hpx]
    exact (eligScored_mem qwords _ x hx).1

/-- C1 (confirmed): on every path of `summarize`, the chosen sentences are
joined in non-decreasing original-index order — the returned string is the
stripped space-join of `summarizeChosen`, whose index components are
pairwise non-decreasing and address the corresponding sentences of the
split text. -/
theorem summarize_C1_order (text : String) (qwords : List String) (k : Nat) :
    summarize text qwords k
        = pyStrip (joinSpace ((summarizeChosen text qwords k).map Prod.snd)) ∧
    List.Pairwise (· ≤ ·) ((summarizeChosen text qwords k).map Prod.fst) ∧
    ∀ p ∈ summarizeChosen text qwords k, (sentSplit text)[p.1]? = some p.2 := by
  refine ⟨?_, ?_, fun p hp => summarizeChosen_mem text qwords k p hp⟩
  · unfold summarize summarizeChosen
    by_cases h0 : text = ""
    · rw [if_pos h0, if_pos h0]
      decide
    · rw [if_neg h0, if_neg h0]
      by_cases h1 : eligScored qwords (sentSplit text) = []
      · rw [if_pos h1, if_pos h1, List.enum_map_snd]
      · rw [if_neg h1, if_neg h1, List.map_map]
        rfl
  · unfold summarizeChosen
    by_cases h0 : text = ""
    · rw [if_pos h0]
      exact List.Pairwise.nil
    · rw [if_neg h0]
      by_cases h1 : eligScored qwords (sentSplit text) = []
      · rw [if_pos h1, List.enum_map_fst]
        exact (List.pairwise_lt_range _).imp (fun h => Nat.le_of_lt h)
      · rw [if_neg h1, List.map_map, List.pairwise_map]
        exact List.sorted_insertionSort rIdx _

/-- C2 (confirmed): `summarize` selects at most `max 2 k` sentences, every
selected sentence has whitespace word count in `[6, 40]` on the scored
path, and when no sentence survives the length filter the result is the
space-join of the first `k` sentences in original order. -/
theorem summarize_C2_bounds (text : String) (qwords : List String) (k : Nat) :
    (summarizeChosen text qwords k).length ≤ max 2 k ∧
    ((eligScored qwords (sentSplit text) = [] ∧
        summarize text qwords k = pyStrip (joinSpace ((sentSplit text).take k))) ∨
      (eligScored qwords (sentSplit text) ≠ [] ∧
        ∀ p ∈ summarizeChosen text qwords k,
          6 ≤ (pysplit p.2).length ∧ (pysplit p.2).length ≤ 40)) := by
  constructor
  · unfold summarizeChosen
    by_cases h0 : text = ""
    · rw [if_pos h0]
      exact Nat.zero_le _
    · rw [if_neg h0]
      by_cases h1 : eligScored qwords (sentSplit text) = []
      · rw [if_pos h1, List.enum_length]
        calc ((sentSplit text).take k).length ≤ k := List.length_take_le k _
          _ ≤ max 2 k := Nat.le_max_right 2 k
      · rw [if_neg h1, List.length_map, List.length_insertionSort]
        exact List.length_take_le _ _
  · by_cases h1 : eligScored qwords (sentSplit text) = []
    · refine Or.inl ⟨h1, ?_⟩
      unfold summarize
      by_cases h0 : text = ""
      · rw [if_pos h0, h0]
        have hs : sentSplit "" = [""] := rfl
        rw [hs]
        cases k with
        | zero => decide
        | succ m =>
          rw [List.take_succ_cons, List.take_nil]
          decide
      · rw [if_neg h0, if_pos h1]
    · refine Or.inr ⟨h1, fun p hp => ?_⟩
      obtain ⟨x, hx, hpx⟩ := summarizeChosen_elig text qwords k h1 p hp
      rw [hpx]
      exact (eligScored_mem qwords _ x hx).2

/-! ### soft_spellfix (app.py lines 127-143)

The spell checker is an oracle; `Except.error ()` models a raised
exception.  In the source only the `speller.unknown` call sits inside a
`try`; `speller.correction` is called outside any handler. -/

/-- the spell-check collaborator: either operation may raise, and
`correction` may return Python `None` (modelled `none`). -/
structure Speller where
  unknown : List String → Except Unit (List String)
  correction : String → Except Unit (Option String)

/-- the words `soft_spellfix` submits to unknown-word detection:
space-separated tokens longer than 6 characters, alphabetic, not stop
words, lowercased (a Python set comprehension, modelled in
first-occurrence order). -/
def unkCandidates (q : String) : List String :=
  dedupFirst (((pysplit q).filter
    (fun w => decide (6 < w.length) && pyIsAlpha w && !decide (pyLower w ∈ STOP))).map
      pyLower)

/-- the `unknown = speller.unknown(unknown)` line with its `try/except`:
an exception leaves the unknown set empty. -/
def resolvedUnknown (sp : Speller) (q : String) : List String :=
  match sp.unknown (unkCandidates q) with
  | Except.ok u => u
  | Except.error _ => []

/-- the per-word loop of `soft_spellfix` (lines 135-142): a flagged word is
replaced by its correction when the correction is truthy and within 2
characters in length; `speller.correction` raising propagates. -/
def spellfixGo (sp : Speller) (unk : List String) :
    List String → Except Unit (List String)
  | [] => Except.ok []
  | w :: ws =>
    if pyLower w ∈ unk then
      match sp.correction (pyLower w) with
      | Except.error e => Except.error e
      | Except.ok cand =>
        match spellfixGo sp unk ws with
        | Except.error e => Except.error e
        | Except.ok rest =>
          Except.ok
            ((match cand with
              | some c =>
                if c ≠ "" ∧ ((c.length : Int) - ((pyLower w).length : Int)).natAbs ≤ 2
                then c else w
              | none => w) :: rest)
    else
      match spellfixGo sp unk ws with
      | Except.error e => Except.error e
      | Except.ok rest => Except.ok (w :: rest)

/-- app.py `soft_spellfix` (lines 128-143). -/
def soft_spellfix (sp : Speller) (q : String) : Except Unit String :=
  match spellfixGo sp (resolvedUnknown sp q) (pysplit q) with
  | Except.ok out => Except.ok (joinSpace out)
  | Except.error e => Except.error e

/-! ### web_answer (app.py lines 184-228) -/

/-- a raw result from the search collaborator (its `dict.get` fields;
an absent key is `none`). -/
structure SearchResult where
  href : Option String
  url : Option String
  title : Option String
  body : Option String
  description : Option String

/-- a suggestion entry from the search collaborator. -/
structure Sugg where
  phrase : Option String

/-- `r.get("href") or r.get("url") or ""`. -/
def pyUrl (r : SearchResult) : String :=
  pyor (r.href.getD "") (pyor (r.url.getD "") "")

/-- `r.get("title") or ""`. -/
def pyTitle (r : SearchResult) : String := pyor (r.title.getD "") ""

/-- `r.get("body") or r.get("description") or ""`. -/
def pyBody (r : SearchResult) : String :=
  pyor (r.body.getD "") (pyor (r.description.getD "") "")

/-- app.py line 39: excluded URL fragments. -/
def BAD_DOMAINS : List String :=
  ["pinterest.", "quora.", "reddit.", "youtube.", "facebook.", "x.com", "twitter."]

def FETCH_TOP : Nat := 3

def TEXT_LIMIT : Nat := 6000

def substrAux (w : List Char) : List Char → Bool
  | [] => w.isEmpty
  | c :: cs => w.isPrefixOf (c :: cs) || substrAux w cs

/-- Python `w in t`: substring containment. -/
def isSubstr (w : String) (t : String) : Bool := substrAux w.data t.data

/-- `any(bad in url for bad in BAD_DOMAINS)`. -/
def anyBad (url : String) : Bool := BAD_DOMAINS.any (fun b => isSubstr b url)

/-- non-overlapping left-to-right occurrence scan; the fuel is the length
of the scanned list plus one, which suffices because each step consumes at
least one character when the needle is nonempty. -/
def countOccsGo (w : List Char) : Nat → List Char → Nat
  | 0, _ => 0
  | _ + 1, [] => 0
  | fuel + 1, c :: cs =>
    if w.isPrefixOf (c :: cs) then 1 + countOccsGo w fuel ((c :: cs).drop w.length)
    else countOccsGo w fuel cs

/-- Python `t.count(w)` (for the empty needle Python counts `len(t)+1`
gaps; the keywords that reach it here are never empty). -/
def countOccs (t w : String) : Nat :=
  if w.data = [] then t.data.length + 1
  else countOccsGo w.data (t.data.length + 1) t.data

/-- the scoring formula of `web_answer`, both stages:
`sum(text.count(w) for w in qwords) / (1 + len(text)/1500)`, with Python
floats modelled as exact rationals. -/
def scoreText (qwords : List String) (t : String) : ℚ :=
  ((qwords.map (fun w => (countOccs t w : ℚ))).sum) / (1 + (t.length : ℚ) / 1500)

/-- `qwords = set(keywords(q1))`. -/
def qwordsOf (q1 : String) : List String := dedupFirst (keywords q1)

/-- the candidate filter of `web_answer` (lines 200-210) without the
score: drop empty and already-seen URLs, then excluded-domain fragments;
`seen` accumulates the URLs of kept results, as in the source, where
`seen.add(url)` runs only after both checks pass. -/
def filteredResults : List SearchResult → List String → List (String × String × String)
  | [], _ => []
  | r :: rest, seen =>
    if pyUrl r = "" ∨ pyUrl r ∈ seen then filteredResults rest seen
    else if anyBad (pyUrl r) then filteredResults rest seen
    else (pyTitle r, pyUrl r, pyBody r) :: filteredResults rest (pyUrl r :: seen)

/-- the fused filtering-and-scoring loop of `web_answer` (lines 200-210),
producing the `(score, title, url)` triples of `prelim`. -/
def prelimLoop (qwords : List String) :
    List SearchResult → List String → List (ℚ × String × String)
  | [], _ => []
  | r :: rest, seen =>
    if pyUrl r = "" ∨ pyUrl r ∈ seen then prelimLoop qwords rest seen
    else if anyBad (pyUrl r) then prelimLoop qwords rest seen
    else (scoreText qwords (pyLower (pyTitle r ++ " " ++ pyBody r)), pyTitle r, pyUrl r)
      :: prelimLoop qwords rest (pyUrl r :: seen)

/-- app.py `extract_readable` (lines 148-168) with `USE_TRAFILATURA =
False`, so only the requests/BeautifulSoup branch runs.  `attempt` is the
oracle for the `try` block up to the soup queries: on success it yields
the meta-description text and the paragraph texts, on failure the
exception that the `except` converts to `""`.  The remaining pure lines
(`" ".join(paras[:6])`, whitespace collapse, `[:TEXT_LIMIT]`) are the
source's. -/
def extract_readable (attempt : Except Unit (String × List String)) : String :=
  match attempt with
  | Except.error _ => ""
  | Except.ok mp =>
    ⟨(joinSpace (pysplit (mp.1 ++ " " ++ joinSpace (mp.2.take 6)))).data.take TEXT_LIMIT⟩

/-- the fetch-and-rescore loop of `web_answer` (lines 214-222): URLs whose
extraction is empty contribute nothing; the rest yield a rescored
candidate and a `(title or url, url)` source entry, in fetch order. -/
def fetchLoop (fetchA : String → Except Unit (String × List String))
    (qwords : List String) :
    List (ℚ × String × String) →
      List (ℚ × String × String × String) × List (String × String)
  | [] => ([], [])
  | e :: rest =>
    if extract_readable (fetchA e.2.2) = "" then fetchLoop fetchA qwords rest
    else
      ((scoreText qwords (pyLower (e.2.1 ++ " " ++ extract_readable (fetchA e.2.2))),
          e.2.1, e.2.2, extract_readable (fetchA e.2.2)) :: (fetchLoop fetchA qwords rest).1,
        (pyor e.2.1 e.2.2, e.2.2) :: (fetchLoop fetchA qwords rest).2)

/-- the key order of `prelim.sort(key=lambda x: x[0], reverse=True)`. -/
def rDesc (x y : ℚ × String × String) : Prop := y.1 ≤ x.1

instance : DecidableRel rDesc := fun x y => inferInstanceAs (Decidable (y.1 ≤ x.1))

instance : IsTotal (ℚ × String × String) rDesc := ⟨fun a b => le_total b.1 a.1⟩

instance : IsTrans (ℚ × String × String) rDesc := ⟨fun _ _ _ hab hbc => le_trans hbc hab⟩

/-- the key order of `candidates.sort(key=lambda x: x[0], reverse=True)`. -/
def rDesc4 (x y : ℚ × String × String × String) : Prop := y.1 ≤ x.1

instance : DecidableRel rDesc4 := fun x y => inferInstanceAs (Decidable (y.1 ≤ x.1))

instance : IsTotal (ℚ × String × String × String) rDesc4 := ⟨fun a b => le_total b.1 a.1⟩

instance : IsTrans (ℚ × String × String × String) rDesc4 :=
  ⟨fun _ _ _ hab hbc => le_trans hbc hab⟩

/-- a valid URL scheme prefix: a letter followed by letters, digits,
`+`, `-` or `.`. -/
def validScheme (sch : List Char) : Bool :=
  match sch with
  | [] => false
  | c :: cs =>
    c.isAlpha && (c :: cs).all (fun d => d.isAlpha || d.isDigit || d = '+' || d = '-' || d = '.')

/-- `urllib.parse.urlparse(url).netloc`: strip a valid `scheme:`, then,
when the rest starts with `//`, the authority runs to the next `/`, `?`
or `#`; otherwise the netloc is empty. -/
def pyNetloc (u : String) : String :=
  match u.data.findIdx? (fun c => decide (c = ':')) with
  | some i =>
    if validScheme (u.data.take i) then
      if (u.data.drop (i + 1)).take 2 = ['/', '/'] then
        ⟨((u.data.drop (i + 1)).drop 2).takeWhile
          (fun c => !(c = '/' || c = '?' || c = '#'))⟩
      else ""
    else
      if u.data.take 2 = ['/', '/'] then
        ⟨(u.data.drop 2).takeWhile (fun c => !(c = '/' || c = '?' || c = '#'))⟩
      else ""
  | none =>
    if u.data.take 2 = ['/', '/'] then
      ⟨(u.data.drop 2).takeWhile (fun c => !(c = '/' || c = '?' || c = '#'))⟩
    else ""

/-- the external collaborators of `web_answer`: the two DDGS calls, the
page-fetch attempt consumed by `extract_readable`, and the spell
checker. -/
structure Collab where
  searchText : String → Except Unit (List SearchResult)
  suggestions : String → Except Unit (List Sugg)
  fetchAttempt : String → Except Unit (String × List String)
  sp : Speller

/-- the suggestion-expansion block (lines 192-199): everything inside the
`try` — the suggestion lookup, the first phrase, and the second search —
collapses to no extra results on any exception. -/
def suggExtra (c : Collab) (q1 : String) : List SearchResult :=
  match c.suggestions q1 with
  | Except.error _ => []
  | Except.ok suggs =>
    match suggs with
    | [] => []
    | s :: _ =>
      if s.phrase.getD "" ≠ "" ∧ pyLower (s.phrase.getD "") ≠ pyLower q1 then
        match c.searchText (s.phrase.getD "") with
        | Except.error _ => []
        | Except.ok extra => extra
      else []

/-- the pure tail of `web_answer` once the search results are in hand
(lines 200-228): filter and score, stable-sort descending, fetch the top
`FETCH_TOP`, rescore, pick the best, summarize, attach the source host,
return the sources truncated to 3. -/
def webAnswerCore (fetchA : String → Except Unit (String × List String))
    (qwords : List String) (n : Nat) (results : List SearchResult) :
    String × List (String × String) :=
  if prelimLoop qwords results [] = [] then
    ("Sorry, I couldn't find a good answer on the web.", [])
  else
    match List.insertionSort rDesc4
        (fetchLoop fetchA qwords
          ((List.insertionSort rDesc (prelimLoop qwords results [])).take FETCH_TOP)).1 with
    | [] =>
      ("Sorry, I couldn't get a clear answer from the pages I found.",
        (fetchLoop fetchA qwords
          ((List.insertionSort rDesc (prelimLoop qwords results [])).take FETCH_TOP)).2)
    | best :: _ =>
      (if summarize best.2.2.2 qwords n = "" then "Sorry, I couldn't get a clear answer."
        else summarize best.2.2.2 qwords n ++ " (Source: " ++ pyNetloc best.2.2.1 ++ ")",
        ((fetchLoop fetchA qwords
          ((List.insertionSort rDesc (prelimLoop qwords results [])).take FETCH_TOP)).2).take 3)

/-- app.py `web_answer` (lines 184-228): empty-input guard, normalize,
spell-fix (whose `correction` may raise), primary search (not inside any
`try`, so its exception propagates), suggestion expansion (guarded), then
the pure tail. -/
def web_answer (c : Collab) (n : Nat) (q : String) :
    Except Unit (String × List (String × String)) :=
  if pyStrip q = "" then
    Except.ok ("I didn't catch that. Please try again.", [])
  else
    match soft_spellfix c.sp (clean_question q) with
    | Except.error e => Except.error e
    | Except.ok q1 =>
      match c.searchText q1 with
      | Except.error e => Except.error e
      | Except.ok r1 =>
        Except.ok (webAnswerCore c.fetchAttempt (qwordsOf q1) n (r1 ++ suggExtra c q1))

/-! ### settling C5 (soft_spellfix degradation) -/

/-- with an empty unknown set the loop never consults the corrector. -/
theorem spellfixGo_nil_unk (sp : Speller) :
    ∀ ws, spellfixGo sp [] ws = Except.ok ws := by
  intro ws
  induction ws with
  | nil => rfl
  | cons w ws ih =>
    unfold spellfixGo
    rw [if_neg (List.not_mem_nil _), ih]

/-- the import-fallback stub spell checker (app.py lines 17-20): `unknown`
returns the empty set and `correction` echoes its argument. -/
def spellerStub : Speller := ⟨fun _ => Except.ok [], fun w => Except.ok (some w)⟩

/-- a speller whose unknown-word detection echoes its input and whose
correction lookup always raises. -/
def spellerBadCorrection : Speller := ⟨fun l => Except.ok l, fun _ => Except.error ()⟩

/-- Counterexample to C5: in app.py only `speller.unknown` sits inside a
`try`; when unknown-word detection flags `"catastrophe"` and the
correction lookup raises, `soft_spellfix` raises instead of degrading to a
no-op. -/
theorem soft_spellfix_C5_counterexample :
    soft_spellfix spellerBadCorrection "catastrophe" = Except.error () := by
  with_unfolding_all rfl

/-- C5 (amended): `soft_spellfix` degrades to a no-op (the words rejoined
with single spaces, none replaced) whenever the unknown-word lookup raises
or returns the empty set — which is what the unavailable-collaborator stub
does; but when the lookup succeeds and flags a word, an error from the
correction lookup propagates (see the counterexample). -/
theorem soft_spellfix_C5_amended (sp : Speller) (q : String)
    (h : sp.unknown (unkCandidates q) = Except.error () ∨
      sp.unknown (unkCandidates q) = Except.ok []) :
    soft_spellfix sp q = Except.ok (joinSpace (pysplit q)) := by
  have hu : resolvedUnknown sp q = [] := by
    unfold resolvedUnknown
    rcases h with h | h <;> rw [h]
  unfold soft_spellfix
  rw [hu, spellfixGo_nil_unk]

/-- witness for C5 (amended): the stub speller at `"hello world"`. -/
theorem soft_spellfix_C5_witness :
    soft_spellfix spellerStub "hello world"
      = Except.ok (joinSpace (pysplit "hello world")) :=
  soft_spellfix_C5_amended spellerStub "hello world" (Or.inr rfl)

/-! ### settling C4 (empty input) and C6 (exception containment) -/

/-- a correction collaborator that never raises keeps the word loop
total. -/
theorem spellfixGo_ok (sp : Speller)
    (hc : ∀ w, ∃ r, sp.correction w = Except.ok r) (unk : List String) :
    ∀ ws, ∃ out, spellfixGo sp unk ws = Except.ok out := by
  intro ws
  induction ws with
  | nil => exact ⟨[], rfl⟩
  | cons w ws ih =>
    obtain ⟨out, hout⟩ := ih
    unfold spellfixGo
    by_cases hm : pyLower w ∈ unk
    · rw [if_pos hm]
      obtain ⟨r, hr⟩ := hc (pyLower w)
      rw [hr, hout]
      exact ⟨_, rfl⟩
    · rw [if_neg hm, hout]
      exact ⟨_, rfl⟩

theorem soft_spellfix_ok (sp : Speller)
    (hc : ∀ w, ∃ r, sp.correction w = Except.ok r) (q : String) :
    ∃ s, soft_spellfix sp q = Except.ok s := by
  obtain ⟨out, hout⟩ := spellfixGo_ok sp hc (resolvedUnknown sp q) (pysplit q)
  unfold soft_spellfix
  rw [hout]
  exact ⟨_, rfl⟩

/-- C4 (confirmed): on empty or all-whitespace input, `web_answer` returns
exactly the fixed pair, for every behaviour of the collaborators — in
particular no search call can influence the result. -/
theorem web_answer_C4_empty (c : Collab) (n : Nat) (q : String)
    (h : ∀ ch ∈ q.data, ch.isWhitespace = true) :
    web_answer c n q = Except.ok ("I didn't catch that. Please try again.", []) := by
  have hq : pyStrip q = "" := by
    apply string_eq_of_data
    have hnil : List.dropWhile isWs q.data = [] :=
      List.dropWhile_eq_nil_iff.mpr (fun x hx => h x hx)
    rw [pyStrip_data, hnil]
    rfl
  unfold web_answer
  rw [if_pos hq]

/-- a collaborator assembly with inert, never-raising search and
suggestion transports. -/
def collabStub : Collab :=
  ⟨fun _ => Except.ok [], fun _ => Except.ok [], fun _ => Except.error (), spellerStub⟩

/-- witness for C4 at the whitespace-only input `"  "`. -/
theorem web_answer_C4_witness :
    web_answer collabStub 3 "  "
      = Except.ok ("I didn't catch that. Please try again.", []) :=
  web_answer_C4_empty collabStub 3 "  " (by decide)

/-- a collaborator assembly whose primary search transport raises. -/
def collabSearchFail : Collab :=
  ⟨fun _ => Except.error (), fun _ => Except.ok [], fun _ => Except.error (), spellerStub⟩

/-- Counterexample to C6: the first `ddg.text` call of `web_answer` is not
inside any `try`, so a raising search transport propagates out of
`web_answer`. -/
theorem web_answer_C6_counterexample :
    web_answer collabSearchFail 3 "hello" = Except.error () := by
  with_unfolding_all rfl

/-- C6 (amended): `web_answer` contains every failure of the suggestion
lookup, the page fetch/extraction, and the unknown-word detection, and
then returns an `(answer, sources)` pair; but exceptions of the primary
search call and of the spell-correction lookup propagate to the caller
(see the counterexample). -/
theorem web_answer_C6_amended (c : Collab) (n : Nat) (q : String)
    (hs : ∀ s, ∃ r, c.searchText s = Except.ok r)
    (hc : ∀ w, ∃ r, c.sp.correction w = Except.ok r) :
    ∃ a, web_answer c n q = Except.ok a := by
  unfold web_answer
  by_cases h0 : pyStrip q = ""
  · rw [if_pos h0]
    exact ⟨_, rfl⟩
  · rw [if_neg h0]
    obtain ⟨q1, hq1⟩ := soft_spellfix_ok c.sp hc (clean_question q)
    rw [hq1]
    show ∃ a, (match c.searchText q1 with
      | Except.error e => Except.error e
      | Except.ok r1 =>
        Except.ok (webAnswerCore c.fetchAttempt (qwordsOf q1) n (r1 ++ suggExtra c q1)))
      = Except.ok a
    obtain ⟨r1, hr1⟩ := hs q1
    rw [hr1]
    exact ⟨_, rfl⟩

/-- witness for C6 (amended): the inert collaborators at `"hello"`. -/
theorem web_answer_C6_witness :
    ∃ a, web_answer collabStub 3 "hello" = Except.ok a :=
  web_answer_C6_amended collabStub 3 "hello"
    (fun _ => ⟨[], rfl⟩) (fun w => ⟨some w, rfl⟩)

/-! ### settling C3 (the scoring formula at both stages) -/

/-- the fused filter-and-score loop equals the pure filter followed by the
preliminary-score formula on `lowercase(title + " " + body)`. -/
theorem prelimLoop_decomp (qwords : List String) :
    ∀ (results : List SearchResult) (seen : List String),
      prelimLoop qwords results seen
        = (filteredResults results seen).map
          (fun e => (scoreText qwords (pyLower (e.1 ++ " " ++ e.2.2)), e.1, e.2.1)) := by
  intro results
  induction results with
  | nil => intro seen; rfl
  | cons r rest ih =>
    intro seen
    unfold prelimLoop filteredResults
    by_cases h1 : pyUrl r = "" ∨ pyUrl r ∈ seen
    · rw [if_pos h1, if_pos h1]
      exact ih seen
    · rw [if_neg h1, if_neg h1]
      by_cases h2 : anyBad (pyUrl r) = true
      · rw [if_pos h2, if_pos h2]
        exact ih seen
      · rw [if_neg h2, if_neg h2, List.map_cons, ih (pyUrl r :: seen)]

/-- the fetch loop equals the fetch-success filter followed by the
final-score formula on `lowercase(title + " " + fetched_text)` for the
candidates and by `(title or url, url)` for the sources. -/
theorem fetchLoop_decomp (fetchA : String → Except Unit (String × List String))
    (qwords : List String) :
    ∀ l, fetchLoop fetchA qwords l
      = ((l.filter (fun e => decide (extract_readable (fetchA e.2.2) ≠ ""))).map
          (fun e => (scoreText qwords (pyLower (e.2.1 ++ " " ++ extract_readable (fetchA e.2.2))),
            e.2.1, e.2.2, extract_readable (fetchA e.2.2))),
        (l.filter (fun e => decide (extract_readable (fetchA e.2.2) ≠ ""))).map
          (fun e => (pyor e.2.1 e.2.2, e.2.2))) := by
  intro l
  induction l with
  | nil => rfl
  | cons e rest ih =>
    unfold fetchLoop
    by_cases h1 : extract_readable (fetchA e.2.2) = ""
    · have hd : (decide (extract_readable (fetchA e.2.2) ≠ "")) = false := by
        simp [h1]
      rw [if_pos h1, ih, List.filter_cons, hd]
      simp
    · have hd : (decide (extract_readable (fetchA e.2.2) ≠ "")) = true := by
        simp [h1]
      rw [if_neg h1, ih, List.filter_cons, hd]
      simp

/-- C3 (confirmed): each kept result's preliminary score is the
keyword-occurrence count over `lowercase(title + " " + snippet)` divided
by `1 + length/1500`, and the final score applies the identical formula to
`lowercase(title + " " + fetched_text)` — the two loops decompose into
the pure filters followed by exactly the `scoreText` formula. -/
theorem web_answer_C3_scores (qwords : List String) (results : List SearchResult)
    (seen : List String) (fetchA : String → Except Unit (String × List String))
    (l : List (ℚ × String × String)) :
    prelimLoop qwords results seen
        = (filteredResults results seen).map
          (fun e => (scoreText qwords (pyLower (e.1 ++ " " ++ e.2.2)), e.1, e.2.1)) ∧
    fetchLoop fetchA qwords l
        = ((l.filter (fun e => decide (extract_readable (fetchA e.2.2) ≠ ""))).map
            (fun e => (scoreText qwords (pyLower (e.2.1 ++ " " ++ extract_readable (fetchA e.2.2))),
              e.2.1, e.2.2, extract_readable (fetchA e.2.2))),
          (l.filter (fun e => decide (extract_readable (fetchA e.2.2) ≠ ""))).map
            (fun e => (pyor e.2.1 e.2.2, e.2.2))) :=
  ⟨prelimLoop_decomp qwords results seen, fetchLoop_decomp fetchA qwords l⟩

/-! ### settling C10 (excluded-domain filtering is substring containment) -/

theorem mem_dedupSeen (u : String) :
    ∀ (l seen : List String), u ∈ dedupSeen seen l ↔ u ∈ l ∧ u ∉ seen := by
  intro l
  induction l with
  | nil => intro seen; simp [dedupSeen]
  | cons a l ih =>
    intro seen
    unfold dedupSeen
    by_cases ha : a ∈ seen
    · rw [if_pos ha, ih]
      constructor
      · rintro ⟨h1, h2⟩
        exact ⟨List.mem_cons_of_mem a h1, h2⟩
      · rintro ⟨h1, h2⟩
        rcases List.mem_cons.mp h1 with rfl | h1
        · exact absurd ha h2
        · exact ⟨h1, h2⟩
    · rw [if_neg ha]
      constructor
      · intro h
        rcases List.mem_cons.mp h with rfl | h
        · exact ⟨List.mem_cons_self _ _, ha⟩
        · obtain ⟨h1, h2⟩ := (ih (a :: seen)).mp h
          exact ⟨List.mem_cons_of_mem a h1,
            fun hc => h2 (List.mem_cons_of_mem a hc)⟩
      · rintro ⟨h1, h2⟩
        rcases List.mem_cons.mp h1 with rfl | h1
        · exact List.mem_cons_self _ _
        · by_cases hu : u = a
          · rw [hu]
            exact List.mem_cons_self _ _
          · exact List.mem_cons_of_mem a ((ih (a :: seen)).mpr
              ⟨h1, fun hc => (List.mem_cons.mp hc).elim hu h2⟩)

/-- the URLs kept by the candidate loop are the first occurrences, outside
`seen`, of the non-empty URLs containing no excluded fragment. -/
theorem prelimLoop_urls (qwords : List String) :
    ∀ (results : List SearchResult) (seen : List String),
      (prelimLoop qwords results seen).map (fun e => e.2.2)
        = dedupSeen seen ((results.map pyUrl).filter
            (fun u => decide (u ≠ "") && !anyBad u)) := by
  intro results
  induction results with
  | nil => intro seen; rfl
  | cons r rest ih =>
    intro seen
    unfold prelimLoop
    rw [List.map_cons, List.filter_cons]
    by_cases h0 : pyUrl r = ""
    · have hp : (decide (pyUrl r ≠ "") && !anyBad (pyUrl r)) = false := by
        simp [h0]
      rw [if_pos (Or.inl h0), hp]
      simpa using ih seen
    · by_cases h2 : anyBad (pyUrl r) = true
      · have hp : (decide (pyUrl r ≠ "") && !anyBad (pyUrl r)) = false := by
          simp [h2]
        rw [hp]
        by_cases hseen : pyUrl r ∈ seen
        · rw [if_pos (Or.inr hseen)]
          simpa using ih seen
        · rw [if_neg (by rw [not_or]; exact ⟨h0, hseen⟩), if_pos h2]
          simpa using ih seen
      · have hp : (decide (pyUrl r ≠ "") && !anyBad (pyUrl r)) = true := by
          simp [h0, h2]
        rw [hp]
        by_cases hseen : pyUrl r ∈ seen
        · rw [if_pos (Or.inr hseen)]
          show (prelimLoop qwords rest seen).map (fun e => e.2.2)
            = dedupSeen seen (pyUrl r :: (rest.map pyUrl).filter
                (fun u => decide (u ≠ "") && !anyBad u))
          unfold dedupSeen
          rw [if_pos hseen]
          exact ih seen
        · rw [if_neg (by rw [not_or]; exact ⟨h0, hseen⟩), if_neg h2, List.map_cons]
          show pyUrl r :: (prelimLoop qwords rest (pyUrl r :: seen)).map (fun e => e.2.2)
            = dedupSeen seen (pyUrl r :: (rest.map pyUrl).filter
                (fun u => decide (u ≠ "") && !anyBad u))
          unfold dedupSeen
          rw [if_neg hseen, ih (pyUrl r :: seen)]

/-- C10 (confirmed): a search result survives into `prelim` exactly when
its URL is non-empty, is not a duplicate of an earlier kept URL, and
contains none of the `BAD_DOMAINS` fragments as a plain substring anywhere
in the URL — the kept URLs are the first-occurrence deduplication of the
non-empty, fragment-free URLs, in order. -/
theorem web_answer_C10_exclusion (qwords : List String) (results : List SearchResult) :
    (prelimLoop qwords results []).map (fun e => e.2.2)
        = dedupFirst ((results.map pyUrl).filter
            (fun u => decide (u ≠ "") && !anyBad u)) ∧
    ∀ u, (u ∈ (prelimLoop qwords results []).map (fun e => e.2.2)) ↔
      (u ≠ "" ∧ anyBad u = false ∧ u ∈ results.map pyUrl) := by
  have h := prelimLoop_urls qwords results []
  refine ⟨h, fun u => ?_⟩
  rw [h]
  show u ∈ dedupSeen [] ((results.map pyUrl).filter
      (fun u => decide (u ≠ "") && !anyBad u)) ↔ _
  rw [mem_dedupSeen]
  simp only [List.mem_filter, List.not_mem_nil, not_false_iff, and_true,
    Bool.and_eq_true, decide_eq_true_eq, Bool.not_eq_true']
  constructor
  · rintro ⟨hm, hne, hbad⟩
    exact ⟨hne, hbad, hm⟩
  · rintro ⟨hne, hbad, hm⟩
    exact ⟨hm, hne, hbad⟩

/-! ### settling C7 (the sources list) -/

/-- in every branch of the core, the returned sources are the fetch-order
successes of the top `FETCH_TOP` preliminary candidates, keyed
`(title or url, url)` and truncated to 3. -/
theorem webAnswerCore_sources (fetchA : String → Except Unit (String × List String))
    (qwords : List String) (n : Nat) (results : List SearchResult) :
    (webAnswerCore fetchA qwords n results).2
      = ((((List.insertionSort rDesc (prelimLoop qwords results [])).take FETCH_TOP).filter
          (fun e => decide (extract_readable (fetchA e.2.2) ≠ ""))).map
          (fun e => (pyor e.2.1 e.2.2, e.2.2))).take 3 := by
  unfold webAnswerCore
  by_cases h0 : prelimLoop qwords results [] = []
  · rw [if_pos h0, h0]
    rfl
  · rw [if_neg h0]
    split
    · rename_i heq
      have h1 : (fetchLoop fetchA qwords
          ((List.insertionSort rDesc (prelimLoop qwords results [])).take FETCH_TOP)).1
          = [] := by
        have hl := congrArg List.length heq
        rw [List.length_insertionSort] at hl
        exact List.length_eq_zero.mp hl
      rw [fetchLoop_decomp] at h1
      have h2 : (((List.insertionSort rDesc (prelimLoop qwords results [])).take
          FETCH_TOP).filter (fun e => decide (extract_readable (fetchA e.2.2) ≠ "")))
          = [] := by
        have := congrArg List.length h1
        rw [List.length_map] at this
        exact List.length_eq_zero.mp this
      show (fetchLoop fetchA qwords
          ((List.insertionSort rDesc (prelimLoop qwords results [])).take FETCH_TOP)).2 = _
      rw [fetchLoop_decomp, h2]
      rfl
    · show ((fetchLoop fetchA qwords
          ((List.insertionSort rDesc (prelimLoop qwords results [])).take FETCH_TOP)).2).take 3
        = _
      rw [fetchLoop_decomp]

/-- C7 (amended): on a successful run `web_answer` returns at most 3
`(title_or_url, url)` pairs, and they are the successfully fetched
candidates in fetch order — that is, in descending preliminary-score
order, not re-sorted by the post-fetch score (see the counterexample). -/
theorem web_answer_C7_amended (c : Collab) (n : Nat) (q : String)
    (a : String) (s : List (String × String))
    (h : web_answer c n q = Except.ok (a, s)) :
    s.length ≤ 3 ∧
    (s = [] ∨ ∃ q1 r1, soft_spellfix c.sp (clean_question q) = Except.ok q1 ∧
      c.searchText q1 = Except.ok r1 ∧
      s = ((((List.insertionSort rDesc
            (prelimLoop (qwordsOf q1) (r1 ++ suggExtra c q1) [])).take FETCH_TOP).filter
          (fun e => decide (extract_readable (c.fetchAttempt e.2.2) ≠ ""))).map
          (fun e => (pyor e.2.1 e.2.2, e.2.2))).take 3) := by
  unfold web_answer at h
  by_cases h0 : pyStrip q = ""
  · rw [if_pos h0] at h
    injection h with h1
    have hs : s = [] := (congrArg Prod.snd h1).symm
    rw [hs]
    exact ⟨Nat.zero_le 3, Or.inl rfl⟩
  · rw [if_neg h0] at h
    rcases hsp : soft_spellfix c.sp (clean_question q) with e | q1
    · rw [hsp] at h
      exact nomatch h
    · rw [hsp] at h
      have h2 : (match c.searchText q1 with
        | Except.error e => Except.error e
        | Except.ok r1 =>
          Except.ok (webAnswerCore c.fetchAttempt (qwordsOf q1) n (r1 ++ suggExtra c q1)))
          = Except.ok (a, s) := h
      rcases hsr : c.searchText q1 with e | r1
      · rw [hsr] at h2
        exact nomatch h2
      · rw [hsr] at h2
        injection h2 with h1
        have hs : s = (webAnswerCore c.fetchAttempt (qwordsOf q1) n
            (r1 ++ suggExtra c q1)).2 := (congrArg Prod.snd h1).symm
        rw [webAnswerCore_sources] at hs
        refine ⟨?_, Or.inr ⟨q1, r1, rfl, hsr, hs⟩⟩
        rw [hs]
        exact List.length_take_le 3 _

set_option maxRecDepth 4000

/-- two results: `resA` wins the preliminary stage (title `"z z"` scores
higher than `"z"`), but the fetched pages reverse the final order. -/
def resA : SearchResult := ⟨some "u1", none, some "z z", some "", none⟩

def resB : SearchResult := ⟨some "u2", none, some "z", some "", none⟩

/-- the fetch oracle: `u1` yields an irrelevant page, `u2` a
keyword-dense one. -/
def fetchAB : String → Except Unit (String × List String) :=
  fun u => if u = "u1" then Except.ok ("", ["y."])
    else if u = "u2" then Except.ok ("", ["z z z z."])
    else Except.error ()

/-- collaborators for the query `"z"` returning `resA` then `resB`. -/
def collabAB : Collab :=
  ⟨fun s => if s = "z" then Except.ok [resA, resB] else Except.ok [],
   fun _ => Except.ok [], fetchAB, spellerStub⟩

/-- Counterexample to C7: `web_answer` returns the sources in fetch order
`[u1, u2]` (descending preliminary score), even though the post-fetch
score of the `u2` candidate strictly exceeds that of the `u1` candidate,
so the sources are not ordered by descending post-fetch score. -/
theorem web_answer_C7_counterexample :
    web_answer collabAB 3 "z"
        = Except.ok ("z z z z. (Source: )", [("z z", "u1"), ("z", "u2")]) ∧
    scoreText (qwordsOf "z")
        (pyLower ("z" ++ " " ++ extract_readable (collabAB.fetchAttempt "u2")))
      > scoreText (qwordsOf "z")
        (pyLower ("z z" ++ " " ++ extract_readable (collabAB.fetchAttempt "u1"))) := by
  constructor
  · with_unfolding_all rfl
  · with_unfolding_all decide

/-- witness for C7 (amended): the hypothesis holds at the concrete run of
the counterexample collaborators, and the bound follows. -/
theorem web_answer_C7_witness :
    ([("z z", "u1"), ("z", "u2")] : List (String × String)).length ≤ 3 :=
  (web_answer_C7_amended collabAB 3 "z" "z z z z. (Source: )"
    [("z z", "u1"), ("z", "u2")] (by with_unfolding_all rfl)).1

/-! ### concrete witnesses for the confirmed claims -/

/-- witness for C1 at a concrete text: the single eligible sentence is
chosen and sits at its original index. -/
theorem summarize_C1_witness :
    (sentSplit "One two three four five six seven. a. b")[(0 : Nat)]?
      = some "One two three four five six seven." :=
  (summarize_C1_order "One two three four five six seven. a. b" ["seven"] 3).2.2
    (0, "One two three four five six seven.") (by decide)

/-- witness for C2 at a concrete text: the selection bound holds. -/
theorem summarize_C2_witness :
    (summarizeChosen "One two three four five six seven. a. b" ["seven"] 3).length
      ≤ max 2 3 :=
  (summarize_C2_bounds "One two three four five six seven. a. b" ["seven"] 3).1

/-- witness for C3 at the concrete counterexample inputs: the fused loop
equals filter-then-score. -/
theorem web_answer_C3_witness :
    prelimLoop ["z"] [resA, resB] []
      = (filteredResults [resA, resB] []).map
        (fun e => (scoreText ["z"] (pyLower (e.1 ++ " " ++ e.2.2)), e.1, e.2.1)) :=
  (web_answer_C3_scores ["z"] [resA, resB] [] fetchAB []).1

/-- a result whose hostname `e.org` is not excluded but whose path
contains the fragment `x.com`. -/
def resX : SearchResult := ⟨some "https://e.org/x.com/p", none, some "t", some "", none⟩

/-- witness for C10: the fragment check is plain substring containment
over the whole URL, so a URL with `x.com` in its path is dropped even
though its hostname is not an excluded domain. -/
theorem web_answer_C10_witness :
    "https://e.org/x.com/p" ∉ (prelimLoop ["z"] [resX] []).map (fun e => e.2.2) :=
  fun hm =>
    absurd (((web_answer_C10_exclusion ["z"] [resX]).2 "https://e.org/x.com/p").mp hm).2.1
      (by decide)

end VWC
